import Mathlib

/-!
Shallow embedding of the OKX-DEX-BOT swap execution core
(`okx_dex_bot/utils.py`, `config.py`, `rpc.py`, `okx_client.py`, `dex.py`)
together with theorems settling the frozen specification claims.

Conventions of the embedding:
* Python `Decimal` values are modelled as exact rationals (`ℚ`);
  `Decimal.quantize(…, ROUND_DOWN)` and `to_integral_value(ROUND_DOWN)`
  become explicit truncation toward zero.
* Network / chain effects are modelled by oracles: a function from the
  index of the side-effecting call (and, for swaps, the amount being
  sold) to that call's outcome.  Loops become fuel-indexed recursion with
  the fuel taken literally from the source loop bound.
* A Python function that raises is modelled with `Option`/`Except`.
-/

namespace OkxDexBot

/-! ### Configuration constants (`okx_dex_bot/config.py`) -/

/-- Source: `config.py` line 46, `RESET_APPROVE_ON_FAIL = True`. -/
def RESET_APPROVE_ON_FAIL : Bool := true

/-- Source: `config.py` line 47, `REAPPROVE_EVERY_N_FAILURES = 2`. -/
def REAPPROVE_EVERY_N_FAILURES : ℕ := 2

/-- Source: `config.py` lines 48-54, `APPROVE_RESET_ERRORS` (verbatim,
including the two mixed-case entries). -/
def APPROVE_RESET_ERRORS : List String :=
  [ "insufficient allowance"
  , "transfer amount exceeds allowance"
  , "spender"
  , "ERC20: insufficient allowance"
  , "ERC20: transfer amount exceeds allowance" ]

/-- Source: `config.py` line 59, `SWAP_SEND_MAX_ATTEMPTS = 3`. -/
def SWAP_SEND_MAX_ATTEMPTS : ℕ := 3

/-- Source: `config.py` line 60, `CHUNK_MAX_ATTEMPTS = 2`. -/
def CHUNK_MAX_ATTEMPTS : ℕ := 2

/-- Source: `config.py` line 61, `SECONDARY_EARLY_EXIT_SOLD = 2`. -/
def SECONDARY_EARLY_EXIT_SOLD : ℕ := 2

/-- Source: `config.py` line 62, `CHUNK_PRIMARY_RATIOS = [0.60, 0.30, 0.10]`. -/
def CHUNK_PRIMARY_RATIOS : List ℚ := [60/100, 30/100, 10/100]

/-- Source: `config.py` line 63, `CHUNK_SECONDARY_RATIOS = [0.50, 0.30, 0.20]`. -/
def CHUNK_SECONDARY_RATIOS : List ℚ := [50/100, 30/100, 20/100]

/-! ### Numeric helpers (`okx_dex_bot/utils.py`, `dex.py`) -/

/-- Truncation toward zero, the meaning of `decimal.ROUND_DOWN`:
`Decimal.to_integral_value(rounding=ROUND_DOWN)`. -/
def truncToZero (x : ℚ) : ℤ :=
  if 0 ≤ x then ⌊x⌋ else -⌊-x⌋

/-- Source: `utils.py` lines 9-11, `to_base_units(amount, decimals)`:
`int((amount * 10**decimals).to_integral_value(rounding=ROUND_DOWN))`.
The Python function returns the decimal string of this integer; we model
the integer itself. -/
def to_base_units (amount : ℚ) (decimals : ℕ) : ℤ :=
  truncToZero (amount * 10 ^ decimals)

/-- Quantization step used throughout `dex.py`:
`q = Decimal("0.000000000000000001")` (18 decimal places). -/
def chunkQuantum : ℚ := 1 / 10 ^ 18

/-- Source: `dex.py`, the idiom `x.quantize(q, rounding=ROUND_DOWN)` with
`q = Decimal("0.000000000000000001")`: round `x` to 18 decimal places,
toward zero. -/
def quantize18RD (x : ℚ) : ℚ :=
  (truncToZero (x * 10 ^ 18) : ℚ) / 10 ^ 18

/-- A rational lying on the 18-decimal-place grid (an exact `Decimal`
with at most 18 fractional digits). -/
def IsQuantized18 (x : ℚ) : Prop :=
  ∃ n : ℤ, x = (n : ℚ) / 10 ^ 18

/-! ### Chunk-plan builder (`dex.py` lines 416-435, `_build_chunks`) -/

/-- Source: the loop body of `_build_chunks` (`dex.py` lines 425-433).
`acc` is the running sum of the already-emitted parts; every ratio
except the last contributes `(amount * r).quantize(q, ROUND_DOWN)`,
the last position contributes `(amount - acc).quantize(q, ROUND_DOWN)`. -/
def buildParts (amount : ℚ) : List ℚ → ℚ → List ℚ
  | [], _ => []
  | [_], acc => [quantize18RD (amount - acc)]
  | r :: rs, acc =>
    let p := quantize18RD (amount * r)
    p :: buildParts amount rs (acc + p)

/-- Source: `dex.py` lines 416-435, `_build_chunks(amount, ratios)`:
empty result for `amount <= 0`, otherwise the parts from `buildParts`
with the zero entries filtered out (`[p for p in parts if p > 0]`). -/
def _build_chunks (amount : ℚ) (ratios : List ℚ) : List ℚ :=
  if amount ≤ 0 then []
  else (buildParts amount ratios 0).filter (fun p => decide (0 < p))

/-! ### Python-style string and integer parsing (`utils.py` lines 16-32) -/

/-- Value of a single character as a digit in base `b` (`none` when the
character is not a digit of that base), matching what `int(s, b)` accepts
for `b` equal to 10 or 16. -/
def digitVal (b : ℕ) : Char → Option ℕ
  | c =>
    if c.isDigit then
      let d := c.toNat - 48
      if d < b then some d else none
    else if b = 16 ∧ 'a' ≤ c ∧ c ≤ 'f' then some (c.toNat - 87)
    else if b = 16 ∧ 'A' ≤ c ∧ c ≤ 'F' then some (c.toNat - 55)
    else none

/-- Continuation of a digit run in Python `int` syntax: a single
underscore may separate two digits, never lead, trail or repeat. -/
def digitsCont (b : ℕ) : List Char → ℕ → Option ℕ
  | [], acc => some acc
  | '_' :: rest, acc =>
    match rest with
    | [] => none
    | c :: rest' =>
      match digitVal b c with
      | some d => digitsCont b rest' (acc * b + d)
      | none => none
  | c :: rest, acc =>
    match digitVal b c with
    | some d => digitsCont b rest (acc * b + d)
    | none => none

/-- A nonempty digit run (base `b`) with Python underscore rules. -/
def digitsRun (b : ℕ) : List Char → Option ℕ
  | [] => none
  | c :: rest =>
    match digitVal b c with
    | some d => digitsCont b rest d
    | none => none

/-- Optional sign prefix: returns (negative?, remaining characters). -/
def splitSign : List Char → Bool × List Char
  | '+' :: rest => (false, rest)
  | '-' :: rest => (true, rest)
  | cs => (false, cs)

/-- Model of Python `int(s)` (base 10): may raise `ValueError`, hence
`Option`.  Whitespace is stripped, an optional sign precedes a digit run. -/
def pyIntDec (s : String) : Option ℤ :=
  let (neg, cs) := splitSign s.trim.toList
  (digitsRun 10 cs).map (fun n => if neg then -(n : ℤ) else (n : ℤ))

/-- Hexadecimal digit run with the optional `0x`/`0X` prefix accepted by
`int(s, 16)`; an underscore may directly follow the prefix. -/
def hexBody : List Char → Option ℕ
  | '0' :: 'x' :: '_' :: rest => digitsRun 16 rest
  | '0' :: 'x' :: rest => digitsRun 16 rest
  | '0' :: 'X' :: '_' :: rest => digitsRun 16 rest
  | '0' :: 'X' :: rest => digitsRun 16 rest
  | cs => digitsRun 16 cs

/-- Model of Python `int(s, 16)`. -/
def pyIntHex (s : String) : Option ℤ :=
  let (neg, cs) := splitSign s.trim.toList
  (hexBody cs).map (fun n => if neg then -(n : ℤ) else (n : ℤ))

/-- A Python value reaching `parse_int_auto`: `None`, an `int`, a `str`,
or some other object (for which the embedding carries the outcome that
`int(x)` would have: `some n` on success, `none` when it raises). -/
inductive PyVal where
  | vNone
  | vInt (n : ℤ)
  | vStr (s : String)
  | vObj (intCast : Option ℤ)

/-- Source: `utils.py` lines 16-32, `parse_int_auto(x)`:
`None → None`; `int → x`; `str → strip, lower, then hex when the result
starts with "0x" else decimal, `None` when parsing raises`; any other
object → `int(x)` with exceptions turned into `None`. -/
def parse_int_auto : PyVal → Option ℤ
  | .vNone => none
  | .vInt n => some n
  | .vStr x =>
    let s := x.trim.toLower
    if s.startsWith "0x" then pyIntHex s else pyIntDec s
  | .vObj c => c

/-! ### RPC endpoint rotation (`okx_dex_bot/rpc.py`) -/

/-- Fate of one configured endpoint when probed by `RpcRotator.connect`
(`rpc.py` lines 51-65): `live` — `is_connected()` holds and the
block-height query answers; `connectFail` — `is_connected()` is false;
`queryError` — connected but `w3.eth.block_number` raises;
`skipped` — `_make_web3` returned `None` (WS endpoint with a proxy, or
no WS provider available). -/
inductive EpStatus where
  | live
  | connectFail
  | queryError
  | skipped
deriving DecidableEq

/-- Source: the `while attempts < tries` loop of `RpcRotator.connect`
(`rpc.py` lines 50-65), with the endpoint fates supplied as a list.
Returns the index of the endpoint connected to (or `none` when the loop
exhausts and `AllEndpointsDown` is raised) together with the list of
endpoint indices tried, in order.  `idx` is the rotation cursor
`self.idx`; each iteration probes `urls[idx % len(urls)]` and advances
both the cursor and the attempt counter, also for skipped endpoints. -/
def connectAux (eps : List EpStatus) : ℕ → ℕ → Option ℕ × List ℕ
  | _, 0 => (none, [])
  | idx, t + 1 =>
    let i := idx % eps.length
    match eps.getD i .connectFail with
    | .live => (some i, [i])
    | _ =>
      let r := connectAux eps (idx + 1) t
      (r.1, i :: r.2)

/-- Python truthiness of `tries or len(urls)` (`rpc.py` line 49):
`None` and `0` both fall back to the endpoint count. -/
def pyOrLen (tries : Option ℕ) (len : ℕ) : ℕ :=
  match tries with
  | none => len
  | some n => if n = 0 then len else n

/-- Source: `RpcRotator.connect` (`rpc.py` lines 48-66). -/
def connect (eps : List EpStatus) (idx : ℕ) (tries : Option ℕ) :
    Option ℕ × List ℕ :=
  connectAux eps idx (pyOrLen tries eps.length)

/-! ### OKX HTTP client retries (`okx_dex_bot/okx_client.py` lines 49-63) -/

/-- An HTTP response as far as `_send_with_retries` inspects it: the
status code and the optional `Retry-After` header. -/
structure HttpResp where
  status : ℕ
  retryAfter : Option String
deriving DecidableEq

/-- Value of a nonempty all-digit string, the `int(ra)` applied to a
`Retry-After` header that passed `ra.isdigit()`. -/
def digitStrVal (s : String) : ℕ :=
  s.toList.foldl (fun a c => a * 10 + (c.toNat - 48)) 0

/-- Python `ra and ra.isdigit()`: the header is present, nonempty, and
all characters are digits. -/
def retryAfterUsable (ra : Option String) : Bool :=
  match ra with
  | none => false
  | some s => !s.isEmpty && s.toList.all Char.isDigit

/-- Source: `okx_client.py` lines 55-59: the base sleep for attempt
`a` is `int(Retry-After)` when the header is a usable digit string, else
`min(base_sleep * 2**(attempt-1), 8.0)` with `base_sleep = 1.0`. -/
def backoffSleep (r : HttpResp) (attempt : ℕ) : ℚ :=
  match r.retryAfter with
  | some ra =>
    if !ra.isEmpty && ra.toList.all Char.isDigit then (digitStrVal ra : ℚ)
    else min ((1 : ℚ) * 2 ^ (attempt - 1)) 8
  | none => min ((1 : ℚ) * 2 ^ (attempt - 1)) 8

/-- Predicate under which `requests.Response.raise_for_status` raises:
a 4xx or 5xx status code. -/
def raisesForStatus (s : ℕ) : Bool :=
  400 ≤ s && s < 600

/-- Source: the `for attempt in range(1, max_retries + 1)` loop of
`_send_with_retries` (`okx_client.py` lines 50-63).  `resp a` is the
response to the `a`-th send (1-based); `jitter a` the value of
`random.uniform(0, 0.5)` added to that attempt's sleep.  Result: the
outcome (`ok` response, or the raising status), the number of sends
performed, and the sleeps taken, in order.  When the fuel runs out every
send saw a 429 and the trailing `resp.raise_for_status()` raises 429. -/
def sendLoop (resp : ℕ → HttpResp) (jitter : ℕ → ℚ) :
    ℕ → ℕ → Except ℕ HttpResp × ℕ × List ℚ
  | 0, _ => (.error 429, 0, [])
  | f + 1, a =>
    let r := resp a
    if r.status ≠ 429 then
      if raisesForStatus r.status then (.error r.status, 1, [])
      else (.ok r, 1, [])
    else
      let s := backoffSleep r a + jitter a
      let rec' := sendLoop resp jitter f (a + 1)
      (rec'.1, rec'.2.1 + 1, s :: rec'.2.2)

/-- Source: `_send_with_retries(prepped, max_retries=5, base_sleep=1.0)`
(`okx_client.py` lines 49-63). -/
def _send_with_retries (resp : ℕ → HttpResp) (jitter : ℕ → ℚ) :
    Except ℕ HttpResp × ℕ × List ℚ :=
  sendLoop resp jitter 5 1

/-! ### Substring matching and the allowance-reset decision (`dex.py`) -/

/-- Boolean list-prefix test used to implement Python's `in` on strings. -/
def prefixAt : List Char → List Char → Bool
  | [], _ => true
  | _ :: _, [] => false
  | a :: as, b :: bs => a == b && prefixAt as bs

/-- Python `needle in hay` for strings: some suffix of `hay` starts with
`needle`. -/
def containsSub (needle : List Char) : List Char → Bool
  | [] => needle.isEmpty
  | c :: t => prefixAt needle (c :: t) || containsSub needle t

/-- Python string membership `needle in hay`. -/
def pyIn (needle hay : String) : Bool :=
  containsSub needle.toList hay.toList

/-- Python `str.lower()` (ASCII range): lower-case every character. -/
def pyLower (s : String) : String :=
  ⟨s.data.map Char.toLower⟩

/-- Source: `dex.py` lines 457-480, `_maybe_reset_approve_on_error`:
decides whether a forced allowance reset is attempted after a failure,
from the lower-cased error message alone —
`RESET_APPROVE_ON_FAIL and any(e in err_msg_lower for e in
APPROVE_RESET_ERRORS)`.  The reset call itself sits inside
`try/except`, so the function returns normally whether or not the reset
runs or fails; we model it as the Bool recording whether a reset was
attempted. -/
def _maybe_reset_approve_on_error (err_msg_lower : String) : Bool :=
  RESET_APPROVE_ON_FAIL &&
    APPROVE_RESET_ERRORS.any (fun e => pyIn e err_msg_lower)

/-- Source: `dex.py` lines 409-414, `_maybe_reset_allowance_on_fail`.
This function also consults the periodic failure-count threshold
(`attempt % REAPPROVE_EVERY_N_FAILURES == 0`), but it has no caller
anywhere in the repository. -/
def _maybe_reset_allowance_on_fail (msg_lower : String) (attempt : ℕ) : Bool :=
  if !RESET_APPROVE_ON_FAIL then false
  else if attempt % REAPPROVE_EVERY_N_FAILURES = 0 then true
  else APPROVE_RESET_ERRORS.any (fun e => pyIn e msg_lower)

/-! ### Forced allowance reset (`dex.py` lines 96-161, `_force_reset_allowance`) -/

/-- Truth of an `Except` being a success. -/
def exceptOk {ε α : Type} : Except ε α → Bool
  | .ok _ => true
  | .error _ => false

/-- Source: the `for attempt in range(1, SWAP_SEND_MAX_ATTEMPTS + 1)`
re-approve loop of `_force_reset_allowance` (`dex.py` lines 128-161).
`o k` is the outcome of the `k`-th (0-based) full re-approve attempt
(build, sign, send, receipt; the gas bump and RPC rotation performed
after a failed attempt are absorbed into the oracle).  `lastErr` tracks
`last_err`; when the fuel is exhausted `raise last_err` fires. -/
def reapproveLoop (o : ℕ → Except String Unit) :
    ℕ → ℕ → String → Except String Unit
  | 0, _, lastErr => .error lastErr
  | f + 1, k, lastErr =>
    match o k with
    | .ok _ => .ok ()
    | .error e => reapproveLoop o f (k + 1) e

/-- Source: `dex.py` lines 96-161, `_force_reset_allowance`.
`phase0` is the outcome of the entire approve(0) phase (lines 105-121):
nonce fetch, build, sign, send and receipt, with a receipt status other
than 1 raising inside the `try`.  That phase is wrapped in
`try/except Exception` whose handler only logs, so both outcomes fall
through to `time.sleep(sleep_after)` and then the re-approve loop. -/
def _force_reset_allowance (phase0 : Except String Unit)
    (o : ℕ → Except String Unit) : Except String Unit :=
  match phase0 with
  | .ok _ => reapproveLoop o SWAP_SEND_MAX_ATTEMPTS 0 "Re-approve failed"
  | .error _ => reapproveLoop o SWAP_SEND_MAX_ATTEMPTS 0 "Re-approve failed"

/-! ### Allowance check and approve (`dex.py` lines 165-252, `maybe_approve`) -/

/-- The world as `maybe_approve` observes and mutates it:
`okxEmpty` — the `/approve-transaction` endpoint returned no data row;
`allowance` — `erc20.allowance(owner, spender)` for the OKX-declared
spender; `zeroOk` — receipt status of the approve(0) transaction, when
one is submitted; `sendOk k` — receipt outcome of the `k`-th (0-based)
attempt of the `_send_approve_data` helper. -/
structure ApproveWorld where
  okxEmpty : Bool
  allowance : ℤ
  zeroOk : Bool
  sendOk : ℕ → Bool

/-- Result of a `maybe_approve` call: the returned value (an optional
transaction hash, or the raised error), the number of transactions
submitted to the chain during the call, and the world afterwards. -/
structure ApproveResult where
  result : Except String (Option String)
  txCount : ℕ
  world : ApproveWorld

/-- Source: the `for attempt in range(1, 5)` loop of
`_send_approve_data` (`dex.py` lines 191-228): up to 4 attempts, one
submitted transaction per attempt, first success returns.  Returns the
index of the successful attempt (or `none`) and the number of
transactions submitted. -/
def sendApproveAttempts (ok : ℕ → Bool) : ℕ → ℕ → Option ℕ × ℕ
  | 0, _ => (none, 0)
  | f + 1, k =>
    if ok k then (some k, 1)
    else
      let r := sendApproveAttempts ok f (k + 1)
      (r.1, r.2 + 1)

/-- The main-approve tail of `maybe_approve` (`dex.py` line 252 calling
`_send_approve_data`): on success the OKX calldata `approve(spender,
amount_base)` is confirmed, setting the on-chain allowance to
`amountBase`; `base` counts transactions already submitted earlier in
the call. -/
def mainApprove (w : ApproveWorld) (amountBase : ℤ) (base : ℕ) :
    ApproveResult :=
  match sendApproveAttempts w.sendOk 4 0 with
  | (some _, c) =>
    ⟨.ok (some "0xapprove"), base + c, { w with allowance := amountBase }⟩
  | (none, c) => ⟨.error "approve send failed", base + c, w⟩

/-- Source: `dex.py` lines 165-252, `maybe_approve`.
Empty endpoint data → `None` with no transaction (lines 174-177);
`current >= amount_base` → `None` with no transaction (lines 187-188);
otherwise a nonzero current allowance is first zeroed by an approve(0)
transaction whose revert raises (lines 231-249, allowance becomes 0 on
success), and then the OKX approve calldata is sent via
`_send_approve_data`. -/
def maybe_approve (w : ApproveWorld) (amountBase : ℤ) : ApproveResult :=
  if w.okxEmpty then ⟨.ok none, 0, w⟩
  else if amountBase ≤ w.allowance then ⟨.ok none, 0, w⟩
  else if 0 < w.allowance then
    if w.zeroOk then mainApprove { w with allowance := 0 } amountBase 1
    else ⟨.error "Approve(0) failed", 1, w⟩
  else mainApprove w amountBase 0

/-! ### Swap submission loop (`dex.py` lines 256-391, `do_swap`) -/

/-- Outcome of one full swap attempt (`_sell_once` / the body of the
submit-and-confirm loop): either a confirmed transaction with the
realized USDT output, or a failure carrying the error message. -/
inductive SwapOutcome where
  | success (tx : String) (usdt : ℚ)
  | failure (msg : String)

/-- Source: the submit-and-confirm loop of `do_swap`
(`dex.py` lines 337-391).  `o k` is the outcome of the `k`-th (0-based)
submission attempt (build, sign, `send_raw_transaction`, receipt); the
failure branch's gas-price bump, RPC rotation and 0.7 s sleep do not
affect the control flow and are absorbed into the oracle.  Returns the
successful result (or `none` when `raise last_error` fires) and the
number of submission attempts performed. -/
def doSwapSendLoop (o : ℕ → SwapOutcome) :
    ℕ → ℕ → Option (String × ℚ) × ℕ
  | 0, k => (none, k)
  | f + 1, k =>
    match o k with
    | .success tx u => (some (tx, u), k + 1)
    | .failure _ => doSwapSendLoop o f (k + 1)

/-- Source: `dex.py` line 338, `for attempt in range(1, 3)`: the loop
bound is the literal 2.  The `max_attempts` parameter of `do_swap`
(line 267, default 5) appears nowhere in the body, so it is accepted and
ignored here exactly as in the source. -/
def do_swap_send (o : ℕ → SwapOutcome) (max_attempts : ℕ) :
    Option (String × ℚ) × ℕ :=
  let _ := max_attempts
  doSwapSendLoop o 2 0

/-! ### Adaptive sell controller (`dex.py` lines 482-607, `sell_token_with_retry`)

The controller is driven by the oracle `o : ℕ → ℚ → SwapOutcome`:
`o k amt` is the outcome of the `k`-th (0-based) `_sell_once` call in
program order, selling the amount `amt`.  Alongside the returned pair
`(last_tx, total_usdt)` the embedding records the next oracle index
(that is, the total number of swap attempts issued) and the trace of
failure events: for every failed attempt, the error message together
with the Bool saying whether `_maybe_reset_approve_on_error` attempted
a forced allowance reset for it. -/

/-- A failed-attempt event: the failure message and whether a forced
allowance reset was attempted in response (`dex.py` lines 513, 538,
575: `_maybe_reset_approve_on_error(str(e).lower(), …)`). -/
abbrev ResetEvent : Type := String × Bool

/-- Source: the per-chunk attempt loop `for attempt in range(1,
CHUNK_MAX_ATTEMPTS + 1)` (`dex.py` lines 528-546 and 559-587): sell
`amt`, stop at the first success; each failure runs the reset check,
rotates the RPC endpoint and sleeps with backoff (control-flow
irrelevant), then retries.  Returns the successful `(tx, usdt)` if any,
the next oracle index, and the event trace extended chronologically. -/
def chunkTry (o : ℕ → ℚ → SwapOutcome) (amt : ℚ) :
    ℕ → ℕ → List ResetEvent → Option (String × ℚ) × ℕ × List ResetEvent
  | 0, k, evs => (none, k, evs)
  | f + 1, k, evs =>
    match o k amt with
    | .success tx u => (some (tx, u), k + 1, evs)
    | .failure msg =>
      chunkTry o amt f (k + 1)
        (evs ++ [(msg, _maybe_reset_approve_on_error (pyLower msg))])

/-- Tag distinguishing how the secondary sub-chunk loop ended:
`ret` — a `return last_tx, total_usdt` statement fired inside the loop
(early exit on the sold-count threshold, or give-up on an unsold
sub-chunk); `fall` — every sub-chunk was processed and control falls
through to the next primary chunk. -/
inductive SecStep where
  | ret
  | fall
deriving DecidableEq

/-- Source: the secondary sub-chunk loop (`dex.py` lines 557-602).
Arguments: remaining sub-chunks, oracle index, event trace, number of
sub-chunks sold so far (`sold_sub_count`), accumulated USDT and last
transaction hash.  After each sub-chunk's attempt loop the code first
returns when `sold_sub_count >= SECONDARY_EARLY_EXIT_SOLD`, then
returns when the sub-chunk stayed unsold; both returns carry
`(last_tx, total_usdt)`, so the unsold branch is a single expression
here. -/
def secondaryLoop (o : ℕ → ℚ → SwapOutcome) :
    List ℚ → ℕ → List ResetEvent → ℕ → ℚ → String →
    SecStep × String × ℚ × ℕ × List ResetEvent
  | [], k, evs, _, total, ltx => (.fall, ltx, total, k, evs)
  | s :: rest, k, evs, sold, total, ltx =>
    match chunkTry o s CHUNK_MAX_ATTEMPTS k evs with
    | (some (tx, u), k', evs') =>
      if SECONDARY_EARLY_EXIT_SOLD ≤ sold + 1 then
        (.ret, tx, total + u, k', evs')
      else secondaryLoop o rest k' evs' (sold + 1) (total + u) tx
    | (none, k', evs') => (.ret, ltx, total, k', evs')

/-- Source: the primary chunk loop (`dex.py` lines 525-604).  A chunk
that sells within its attempt budget advances to the next chunk; an
exhausted chunk is re-split with `CHUNK_SECONDARY_RATIOS` and handed to
the secondary loop, whose `ret` outcome returns from the whole function
and whose fall-through continues with the next primary chunk. -/
def primaryLoop (o : ℕ → ℚ → SwapOutcome) :
    List ℚ → ℕ → List ResetEvent → ℚ → String →
    String × ℚ × ℕ × List ResetEvent
  | [], k, evs, total, ltx => (ltx, total, k, evs)
  | c :: rest, k, evs, total, ltx =>
    match chunkTry o c CHUNK_MAX_ATTEMPTS k evs with
    | (some (tx, u), k', evs') => primaryLoop o rest k' evs' (total + u) tx
    | (none, k', evs') =>
      match secondaryLoop o (_build_chunks c CHUNK_SECONDARY_RATIOS)
          k' evs' 0 total ltx with
      | (.ret, ltx', total', k'', evs'') => (ltx', total', k'', evs'')
      | (.fall, ltx', total', k'', evs'') =>
        primaryLoop o rest k'' evs'' total' ltx'

/-- Source: `dex.py` lines 482-607, `sell_token_with_retry`: one direct
full-amount sell (success returns at once); on failure the reset check
runs and the amount is split with `CHUNK_PRIMARY_RATIOS` for the chunk
loops.  Result: `(last_tx, total_usdt, number of swap attempts, event
trace)`. -/
def sell_token_with_retry (o : ℕ → ℚ → SwapOutcome) (amount : ℚ) :
    String × ℚ × ℕ × List ResetEvent :=
  match o 0 amount with
  | .success tx u => (tx, u, 1, [])
  | .failure msg =>
    primaryLoop o (_build_chunks amount CHUNK_PRIMARY_RATIOS) 1
      [(msg, _maybe_reset_approve_on_error (pyLower msg))] 0 ""

/-! ### Concrete instances used by witnesses and counterexamples -/

/-- What one HTTP response makes `_send_with_retries` do when its
status is not 429: `raise_for_status` raises 4xx/5xx, every other
response is returned. -/
def respOutcome (r : HttpResp) : Except ℕ HttpResp :=
  if raisesForStatus r.status then .error r.status else .ok r

/-- Concrete world for the C7 witness: allowance 100, request 50. -/
def c7World : ApproveWorld := ⟨false, 100, true, fun _ => true⟩

/-- Swap oracle on which every submission attempt fails. -/
def allFailOracle : ℕ → SwapOutcome := fun _ => .failure "execution reverted"

/-- Sell oracle for the C2 counterexample: the first two `_sell_once`
calls fail with a message matching none of the configured allowance
substrings; every later call succeeds. -/
def c2Oracle : ℕ → ℚ → SwapOutcome := fun k _ =>
  if k < 2 then .failure "network timeout" else .success "0xc2" 1

/-- Sell oracle for the C2 witness: the direct sell fails with an
allowance-exhaustion message, all chunks then succeed. -/
def c2WOracle : ℕ → ℚ → SwapOutcome := fun k _ =>
  if k = 0 then .failure "insufficient allowance" else .success "0xw" 1

/-- Sell oracle for the C4 witness: every `_sell_once` call succeeds. -/
def c4Oracle : ℕ → ℚ → SwapOutcome := fun _ _ => .success "0xT" 7

/-- Sell oracle on which every `_sell_once` call fails with a message
matching no configured allowance substring. -/
def c4FailOracle : ℕ → ℚ → SwapOutcome := fun _ _ => .failure "slippage"

/-- The reset decision `sell_token_with_retry` actually records for a
failure event: `RESET_APPROVE_ON_FAIL` and some configured substring
occurring in the lower-cased message — nothing else. -/
def GoodEvent (ev : ResetEvent) : Prop :=
  ev.2 = (RESET_APPROVE_ON_FAIL &&
    APPROVE_RESET_ERRORS.any (fun e => pyIn e (pyLower ev.1)))

/-! ## Theorems -/

/-! ### C6 — `to_base_units` truncates toward zero -/

/-- C6: for every decimal amount and every decimal count `d`, the
base-unit conversion `to_base_units(amount, d)` truncates toward zero:
for nonnegative amounts the resulting integer is at most
`amount * 10^d`, and it equals the floor — so it never rounds up, even
when the discarded fractional remainder is at least half of the last
place. -/
theorem c6_to_base_units_truncates (amount : ℚ) (d : ℕ) (h : 0 ≤ amount) :
    (to_base_units amount d : ℚ) ≤ amount * 10 ^ d ∧
    to_base_units amount d = ⌊amount * 10 ^ d⌋ := by
  have h' : 0 ≤ amount * 10 ^ d := mul_nonneg h (by positivity)
  constructor
  · unfold to_base_units truncToZero
    rw [if_pos h']
    exact Int.floor_le _
  · unfold to_base_units truncToZero
    rw [if_pos h']

/-- Witness for C6 at `amount = 3/2`, `d = 0`: the discarded remainder
is exactly one half and the conversion still does not round up. -/
theorem c6_witness :
    (0 : ℚ) ≤ 3 / 2 ∧
    ((to_base_units (3 / 2) 0 : ℚ) ≤ (3 / 2 : ℚ) * 10 ^ 0 ∧
      to_base_units (3 / 2) 0 = ⌊(3 / 2 : ℚ) * 10 ^ 0⌋) :=
  ⟨by norm_num, c6_to_base_units_truncates (3 / 2) 0 (by norm_num)⟩

/-! ### C10 — `parse_int_auto` is total -/

/-- C10: `parse_int_auto` is total and never raises: for every input it
returns an integer or `none`; `None` yields `none`, integers are
returned unchanged, strings are stripped and lower-cased and then
parsed as hexadecimal when prefixed `0x` and as decimal otherwise (with
parse failures giving `none`), and any other object yields whatever a
guarded `int(x)` gives (`none` when it raises). -/
theorem c10_parse_int_auto_total :
    parse_int_auto .vNone = none ∧
    (∀ n, parse_int_auto (.vInt n) = some n) ∧
    (∀ x, parse_int_auto (.vStr x) =
      (if (x.trim.toLower).startsWith "0x" then pyIntHex (x.trim.toLower)
       else pyIntDec (x.trim.toLower))) ∧
    (∀ c, parse_int_auto (.vObj c) = c) ∧
    (∀ v, parse_int_auto v = none ∨ ∃ n, parse_int_auto v = some n) := by
  refine ⟨rfl, fun n => rfl, fun x => rfl, fun c => rfl, fun v => ?_⟩
  cases h : parse_int_auto v with
  | none => exact Or.inl rfl
  | some n => exact Or.inr ⟨n, rfl⟩

/-! ### C3 — chunk plans sum exactly to the total -/

/-- Counterexample to C3 as stated: the total `T = 10⁻¹⁹` is positive
and the ratio list `[1]` sums to 1, yet `_build_chunks` quantizes the
final entry down to zero (and then filters it out), so the chunk sum is
`0`, not `T` — value below the 18-decimal quantization step is lost. -/
theorem c3_counterexample :
    (0 : ℚ) < 1 / 10 ^ 19 ∧ List.sum [(1 : ℚ)] = 1 ∧
    (_build_chunks (1 / 10 ^ 19) [1]).sum ≠ 1 / 10 ^ 19 := by
  refine ⟨by norm_num, by norm_num, ?_⟩
  have h1 : _build_chunks ((1 : ℚ) / 10 ^ 19) [1] = [] := by
    rw [_build_chunks, if_neg (by norm_num)]
    have hb : buildParts ((1 : ℚ) / 10 ^ 19) [1] 0 = [0] := by
      rw [buildParts]
      have hq : quantize18RD ((1 : ℚ) / 10 ^ 19 - 0) = 0 := by
        rw [quantize18RD, truncToZero, if_pos (by norm_num)]
        norm_num
      rw [hq]
    rw [hb]
    rfl
  rw [h1]
  norm_num

/-- Both summands of a quantized difference on the 18-decimal grid keep
the difference on the grid. -/
theorem IsQuantized18.sub {a b : ℚ} (ha : IsQuantized18 a)
    (hb : IsQuantized18 b) : IsQuantized18 (a - b) := by
  obtain ⟨m, rfl⟩ := ha
  obtain ⟨n, rfl⟩ := hb
  exact ⟨m - n, by push_cast [div_sub_div_same]; ring⟩

/-- Sums of grid rationals stay on the grid. -/
theorem IsQuantized18.add {a b : ℚ} (ha : IsQuantized18 a)
    (hb : IsQuantized18 b) : IsQuantized18 (a + b) := by
  obtain ⟨m, rfl⟩ := ha
  obtain ⟨n, rfl⟩ := hb
  exact ⟨m + n, by push_cast [div_add_div_same]; ring⟩

/-- Quantizing a nonnegative rational that already lies on the
18-decimal grid is the identity. -/
theorem quantize18RD_eq_self {x : ℚ} (hq : IsQuantized18 x) (hx : 0 ≤ x) :
    quantize18RD x = x := by
  obtain ⟨n, rfl⟩ := hq
  have h18 : (0 : ℚ) < 10 ^ 18 := by positivity
  have hc : ((n : ℚ) / 10 ^ 18) * 10 ^ 18 = (n : ℚ) :=
    div_mul_cancel₀ _ (ne_of_gt h18)
  have hn : 0 ≤ (n : ℚ) := by
    have := mul_nonneg hx h18.le
    rwa [hc] at this
  unfold quantize18RD truncToZero
  rw [hc, if_pos hn, Int.floor_intCast]

/-- Quantization (round down) never increases a nonnegative value. -/
theorem quantize18RD_le {x : ℚ} (hx : 0 ≤ x) : quantize18RD x ≤ x := by
  have h18 : (0 : ℚ) < 10 ^ 18 := by positivity
  have h' : 0 ≤ x * 10 ^ 18 := mul_nonneg hx h18.le
  unfold quantize18RD truncToZero
  rw [if_pos h', div_le_iff₀ h18]
  exact Int.floor_le _

/-- Quantization keeps nonnegative values nonnegative. -/
theorem quantize18RD_nonneg {x : ℚ} (hx : 0 ≤ x) : 0 ≤ quantize18RD x := by
  have h18 : (0 : ℚ) < 10 ^ 18 := by positivity
  have h' : 0 ≤ x * 10 ^ 18 := mul_nonneg hx h18.le
  unfold quantize18RD truncToZero
  rw [if_pos h']
  exact div_nonneg (by exact_mod_cast Int.floor_nonneg.mpr h') h18.le

/-- Every quantization result lies on the 18-decimal grid. -/
theorem quantize18RD_isQuantized (x : ℚ) : IsQuantized18 (quantize18RD x) :=
  ⟨truncToZero (x * 10 ^ 18), rfl⟩

/-- Loop invariant of `_build_chunks`: with a positive grid total `T`,
nonnegative ratios whose prefix (all but the last) weighs at most the
whole, and a nonnegative grid accumulator within budget, the emitted
parts are nonnegative and sum to exactly `T - acc`. -/
theorem buildParts_spec (T : ℚ) (hT : 0 < T) (hQT : IsQuantized18 T) :
    ∀ (R : List ℚ) (acc : ℚ), R ≠ [] →
      (∀ r ∈ R, 0 ≤ r) → IsQuantized18 acc → 0 ≤ acc →
      acc + T * (R.dropLast).sum ≤ T →
      (buildParts T R acc).sum = T - acc ∧
      ∀ p ∈ buildParts T R acc, 0 ≤ p := by
  intro R
  induction R with
  | nil => exact fun acc h => absurd rfl h
  | cons r rs ih =>
    intro acc _ hr hQa ha hle
    cases rs with
    | nil =>
      have hacc_le : acc ≤ T := by
        simpa using hle
      have hnn : 0 ≤ T - acc := sub_nonneg.mpr hacc_le
      have he : quantize18RD (T - acc) = T - acc :=
        quantize18RD_eq_self (hQT.sub hQa) hnn
      refine ⟨by simp [buildParts, he], ?_⟩
      intro p hp
      simp only [buildParts, List.mem_singleton] at hp
      rw [hp, he]
      exact hnn
    | cons r' rs' =>
      have hr0 : 0 ≤ r := hr r (by simp)
      have hTr : 0 ≤ T * r := mul_nonneg hT.le hr0
      have hp0 : 0 ≤ quantize18RD (T * r) := quantize18RD_nonneg hTr
      have hple : quantize18RD (T * r) ≤ T * r := quantize18RD_le hTr
      have hbound : acc + quantize18RD (T * r) +
          T * ((r' :: rs').dropLast).sum ≤ T := by
        have hle' : acc + T * (r + ((r' :: rs').dropLast).sum) ≤ T := hle
        nlinarith [hle']
      obtain ⟨hsum, hmem⟩ := ih (acc + quantize18RD (T * r)) (by simp)
        (fun x hx => hr x (List.mem_cons_of_mem r hx))
        (hQa.add (quantize18RD_isQuantized _))
        (add_nonneg ha hp0) hbound
      constructor
      · show (quantize18RD (T * r) ::
            buildParts T (r' :: rs') (acc + quantize18RD (T * r))).sum =
            T - acc
        rw [List.sum_cons, hsum]
        ring
      · intro p hp
        rcases List.mem_cons.mp hp with h | h
        · rw [h]; exact hp0
        · exact hmem p h

/-- A filter dropping the non-positive entries of a nonnegative list
leaves the sum unchanged (the removed entries are all zero). -/
theorem sum_filter_pos (l : List ℚ) (h : ∀ p ∈ l, 0 ≤ p) :
    (l.filter (fun p => decide (0 < p))).sum = l.sum := by
  induction l with
  | nil => rfl
  | cons a t ih =>
    have ha := h a (by simp)
    have ht := ih (fun p hp => h p (List.mem_cons_of_mem a hp))
    by_cases hpos : 0 < a
    · simp [List.filter_cons, hpos, ht]
    · have ha0 : a = 0 := le_antisymm (not_lt.mp hpos) ha
      simp [List.filter_cons, hpos, ha0, ht]

/-- C3 (amended): for every nonempty ratio list with nonnegative
entries whose entries other than the last sum to at most 1 (as holds
for any ratio list with nonnegative entries summing to ≈ 1), and every
total `T > 0` lying on the 18-decimal quantization grid,
`_build_chunks(T, R)` returns amounts summing to exactly `T`, the
rounding remainder being absorbed by the final entry.  (The grid
hypothesis is forced by `c3_counterexample`: totals with more than 18
fractional digits lose their sub-grid part.) -/
theorem c3_build_chunks_exact_sum (T : ℚ) (R : List ℚ)
    (hT : 0 < T) (hQT : IsQuantized18 T) (hne : R ≠ [])
    (hr : ∀ r ∈ R, 0 ≤ r) (hsum : (R.dropLast).sum ≤ 1) :
    (_build_chunks T R).sum = T := by
  have hle : (0 : ℚ) + T * (R.dropLast).sum ≤ T := by
    have h1 : T * (R.dropLast).sum ≤ T * 1 :=
      mul_le_mul_of_nonneg_left hsum hT.le
    simpa using h1
  obtain ⟨hs, hnn⟩ :=
    buildParts_spec T hT hQT R 0 hne hr ⟨0, by simp⟩ le_rfl hle
  unfold _build_chunks
  rw [if_neg (not_le.mpr hT), sum_filter_pos _ hnn, hs, sub_zero]

/-- Witness for C3 (amended) at `T = 1`, `R = [0.6, 0.3, 0.1]`. -/
theorem c3_witness :
    (0 : ℚ) < 1 ∧ (_build_chunks 1 [6/10, 3/10, 1/10]).sum = 1 :=
  ⟨by norm_num,
    c3_build_chunks_exact_sum 1 [6/10, 3/10, 1/10] (by norm_num)
      ⟨10 ^ 18, by norm_num⟩ (by simp)
      (by intro r hrm; fin_cases hrm <;> norm_num)
      (by norm_num [List.dropLast])⟩

/-! ### C5 — `connect` tries every endpoint exactly once before failing -/

/-- Rotation invariant of the `connect` loop: when no endpoint is live,
`t` loop iterations probe the cursor-consecutive endpoints
`idx, idx+1, …` (mod the endpoint count) and no connection results. -/
theorem connectAux_all_down (eps : List EpStatus) (hne : eps ≠ [])
    (hall : ∀ s ∈ eps, s ≠ .live) :
    ∀ t idx, connectAux eps idx t =
      (none, (List.range t).map (fun k => (idx + k) % eps.length)) := by
  intro t
  induction t with
  | zero => intro idx; rfl
  | succ t ih =>
    intro idx
    have hlen : 0 < eps.length := List.length_pos.mpr hne
    have hmem : eps.getD (idx % eps.length) .connectFail ∈ eps := by
      rw [List.getD_eq_getElem?_getD,
        List.getElem?_eq_getElem (Nat.mod_lt _ hlen)]
      exact List.getElem_mem _
    have hst : eps.getD (idx % eps.length) .connectFail ≠ .live :=
      hall _ hmem
    rw [connectAux]
    rw [List.range_succ_eq_map, List.map_cons, List.map_map]
    cases hcase : eps.getD (idx % eps.length) .connectFail with
    | live => exact absurd hcase hst
    | connectFail | queryError | skipped =>
      rw [ih (idx + 1)]
      refine Prod.ext rfl ?_
      show idx % eps.length :: _ = (idx + 0) % eps.length :: _
      rw [Nat.add_zero]
      refine congrArg _ ?_
      refine List.map_congr_left (fun a _ => ?_)
      show (idx + 1 + a) % eps.length = (idx + Nat.succ a) % eps.length
      rw [show idx + 1 + a = idx + Nat.succ a from by omega]

/-- C5: when every configured endpoint fails its liveness check (cannot
connect, errors on the block-height query, or is skipped as
incompatible), `connect` with no explicit `tries` raises the
all-endpoints-down error after exactly `len(endpoints)` attempts, the
endpoints having been probed in rotating order starting at the cursor. -/
theorem c5_connect_all_down (eps : List EpStatus) (idx : ℕ)
    (hne : eps ≠ []) (hall : ∀ s ∈ eps, s ≠ .live) :
    connect eps idx none =
      (none,
        (List.range eps.length).map (fun k => (idx + k) % eps.length)) ∧
    (connect eps idx none).2.length = eps.length := by
  have h := connectAux_all_down eps hne hall eps.length idx
  have hc : connect eps idx none = connectAux eps idx eps.length := rfl
  refine ⟨hc.trans h, ?_⟩
  rw [hc, h]
  simp

/-- Witness for C5: three dead endpoints (one refusing the connection,
one skipped, one failing the block query), cursor at 1: the failure
comes after probing endpoints 1, 2, 0 — three attempts exactly. -/
theorem c5_witness :
    connect [EpStatus.connectFail, .skipped, .queryError] 1 none =
      (none, [1, 2, 0]) ∧
    (connect [EpStatus.connectFail, .skipped, .queryError] 1 none).2.length
      = 3 := by
  have h := c5_connect_all_down [EpStatus.connectFail, .skipped, .queryError]
    1 (by simp) (by decide)
  constructor
  · rw [h.1]; rfl
  · rw [h.2]; rfl

/-! ### C7 — `maybe_approve` is a no-op once the allowance suffices -/

/-- C7: when the on-chain allowance for the aggregator-declared spender
is already at least the requested base-unit amount, `maybe_approve`
returns `None`, submits zero transactions and leaves the world
unchanged; consequently a second identical call also submits zero
transactions. -/
theorem c7_maybe_approve_noop (w : ApproveWorld) (amountBase : ℤ)
    (h : amountBase ≤ w.allowance) :
    maybe_approve w amountBase = ⟨.ok none, 0, w⟩ ∧
    maybe_approve (maybe_approve w amountBase).world amountBase =
      ⟨.ok none, 0, w⟩ := by
  have h1 : maybe_approve w amountBase = ⟨.ok none, 0, w⟩ := by
    unfold maybe_approve
    by_cases he : w.okxEmpty = true
    · simp [he]
    · simp [he, h]
  refine ⟨h1, ?_⟩
  rw [h1]
  exact h1

/-- Witness for C7: with allowance 100 and a request for 50 both the
first and the second call return `None` with zero transactions. -/
theorem c7_witness :
    (50 : ℤ) ≤ c7World.allowance ∧
    (maybe_approve c7World 50 = ⟨.ok none, 0, c7World⟩ ∧
      maybe_approve (maybe_approve c7World 50).world 50 =
        ⟨.ok none, 0, c7World⟩) :=
  ⟨by norm_num [c7World], c7_maybe_approve_noop c7World 50 (by norm_num [c7World])⟩

/-! ### C9 — the approve(0) phase of `_force_reset_allowance` is non-fatal -/

/-- Success condition of the re-approve loop: some attempt within the
fuel bound succeeds, whatever error message is carried in. -/
theorem reapproveLoop_ok_iff (o : ℕ → Except String Unit) :
    ∀ f k e, exceptOk (reapproveLoop o f k e) = true ↔
      ∃ j < f, exceptOk (o (k + j)) = true := by
  intro f
  induction f with
  | zero =>
    intro k e
    simp [reapproveLoop, exceptOk]
  | succ f ih =>
    intro k e
    rw [reapproveLoop]
    cases ho : o k with
    | ok u =>
      constructor
      · intro _
        refine ⟨0, Nat.succ_pos f, ?_⟩
        rw [Nat.add_zero, ho]
        rfl
      · intro _
        rfl
    | error e2 =>
      rw [ih (k + 1) e2]
      constructor
      · rintro ⟨j, hj, hok⟩
        refine ⟨j + 1, by omega, ?_⟩
        have : k + 1 + j = k + (j + 1) := by omega
        rwa [this] at hok
      · rintro ⟨j, hj, hok⟩
        cases j with
        | zero =>
          rw [Nat.add_zero, ho] at hok
          exact absurd hok (by simp [exceptOk])
        | succ j =>
          refine ⟨j, by omega, ?_⟩
          have : k + (j + 1) = k + 1 + j := by omega
          rwa [this] at hok

/-- C9: in `_force_reset_allowance` the approve(0) phase is wrapped in
`try/except`, so its failure never by itself makes the reset raise —
the result is the same for a succeeding and a failing approve(0) phase
— and the call succeeds precisely when one of the
`SWAP_SEND_MAX_ATTEMPTS` re-approve attempts succeeds (it raises only
when all of them fail). -/
theorem c9_force_reset_nonfatal (p q : Except String Unit)
    (o : ℕ → Except String Unit) :
    _force_reset_allowance p o = _force_reset_allowance q o ∧
    (exceptOk (_force_reset_allowance p o) = true ↔
      ∃ k < SWAP_SEND_MAX_ATTEMPTS, exceptOk (o k) = true) := by
  constructor
  · cases p <;> cases q <;> rfl
  · have hp : _force_reset_allowance p o =
        reapproveLoop o SWAP_SEND_MAX_ATTEMPTS 0 "Re-approve failed" := by
      cases p <;> rfl
    rw [hp, reapproveLoop_ok_iff o SWAP_SEND_MAX_ATTEMPTS 0 "Re-approve failed"]
    simp

/-! ### C8 — HTTP 429 handling in `_send_with_retries` -/

/-- Counterexample to C8 as stated: a 304 response is not 2xx, yet
`_send_with_retries` returns it to the caller instead of raising —
`raise_for_status` raises only for statuses in [400, 600). -/
theorem c8_counterexample :
    _send_with_retries (fun _ => ⟨304, none⟩) (fun _ => 0) =
      (.ok ⟨304, none⟩, 1, []) ∧
    ¬ (200 ≤ 304 ∧ 304 < 300) ∧
    (Except.ok (⟨304, none⟩ : HttpResp) : Except ℕ HttpResp) ≠
      Except.error 304 :=
  ⟨rfl, by norm_num, by simp⟩

/-- The send loop never performs more sends than its fuel. -/
theorem sendLoop_sends_le (resp : ℕ → HttpResp) (j : ℕ → ℚ) :
    ∀ f a, (sendLoop resp j f a).2.1 ≤ f := by
  intro f
  induction f with
  | zero => intro a; exact le_refl 0
  | succ f ih =>
    intro a
    simp only [sendLoop]
    split
    · split
      · exact Nat.succ_le_succ (Nat.zero_le f)
      · exact Nat.succ_le_succ (Nat.zero_le f)
    · simpa using Nat.succ_le_succ (ih (a + 1))

/-- A run of rate-limited responses: as long as every send in reach of
the fuel answers 429, each send is followed by a sleep of the computed
backoff plus jitter, and the final `raise_for_status` raises 429. -/
theorem sendLoop_all429 (resp : ℕ → HttpResp) (j : ℕ → ℚ) :
    ∀ f a, (∀ i, a ≤ i → i < a + f → (resp i).status = 429) →
      sendLoop resp j f a =
        (.error 429, f,
          (List.range f).map (fun t => backoffSleep (resp (a + t)) (a + t) + j (a + t))) := by
  intro f
  induction f with
  | zero => intro a _; rfl
  | succ f ih =>
    intro a h
    have ha : (resp a).status = 429 := h a le_rfl (by omega)
    simp only [sendLoop]
    rw [if_neg (by simp [ha])]
    rw [ih (a + 1) (fun i h1 h2 => h i (by omega) (by omega))]
    rw [List.range_succ_eq_map, List.map_cons, List.map_map]
    refine Prod.ext rfl (Prod.ext rfl ?_)
    show (backoffSleep (resp a) a + j a) :: _ =
      (backoffSleep (resp (a + 0)) (a + 0) + j (a + 0)) :: _
    rw [Nat.add_zero]
    refine congrArg _ ?_
    refine List.map_congr_left (fun t _ => ?_)
    show backoffSleep (resp (a + 1 + t)) (a + 1 + t) + j (a + 1 + t) =
      backoffSleep (resp (a + Nat.succ t)) (a + Nat.succ t) + j (a + Nat.succ t)
    rw [show a + 1 + t = a + Nat.succ t from by omega]

/-- The first non-429 response ends the loop at once: after `m`
rate-limited sends, send `m + 1` either raises (4xx/5xx) or is returned,
with no further send. -/
theorem sendLoop_first_non429 (resp : ℕ → HttpResp) (j : ℕ → ℚ) :
    ∀ m f a, m < f →
      (∀ i, a ≤ i → i < a + m → (resp i).status = 429) →
      (resp (a + m)).status ≠ 429 →
      sendLoop resp j f a =
        (respOutcome (resp (a + m)), m + 1,
          (List.range m).map (fun t => backoffSleep (resp (a + t)) (a + t) + j (a + t))) := by
  intro m
  induction m with
  | zero =>
    intro f a hf _ hne
    rw [Nat.add_zero] at hne
    cases f with
    | zero => omega
    | succ f =>
      simp only [sendLoop]
      rw [if_pos (by simpa using hne)]
      simp only [Nat.add_zero, Nat.zero_add, List.range_zero, List.map_nil]
      unfold respOutcome
      by_cases hc : raisesForStatus (resp a).status = true
      · rw [if_pos hc, if_pos hc]
      · rw [if_neg hc, if_neg hc]
  | succ m ih =>
    intro f a hf h429 hne
    cases f with
    | zero => omega
    | succ f =>
      have ha : (resp a).status = 429 := h429 a le_rfl (by omega)
      simp only [sendLoop]
      rw [if_neg (by simp [ha])]
      have hrec := ih f (a + 1) (by omega)
        (fun i h1 h2 => h429 i (by omega) (by omega))
        (by rw [show a + 1 + m = a + Nat.succ m from by omega]; exact hne)
      rw [hrec]
      rw [List.range_succ_eq_map, List.map_cons, List.map_map]
      refine Prod.ext ?_ (Prod.ext rfl ?_)
      · show respOutcome (resp (a + 1 + m)) = respOutcome (resp (a + Nat.succ m))
        rw [show a + 1 + m = a + Nat.succ m from by omega]
      · show (backoffSleep (resp a) a + j a) :: _ =
          (backoffSleep (resp (a + 0)) (a + 0) + j (a + 0)) :: _
        rw [Nat.add_zero]
        refine congrArg _ ?_
        refine List.map_congr_left (fun t _ => ?_)
        show backoffSleep (resp (a + 1 + t)) (a + 1 + t) + j (a + 1 + t) =
          backoffSleep (resp (a + Nat.succ t)) (a + Nat.succ t) + j (a + Nat.succ t)
        rw [show a + 1 + t = a + Nat.succ t from by omega]

/-- C8 (amended): `_send_with_retries` performs at most 5 sends; while
responses are 429 it sleeps, between sends, for the `Retry-After` value
when that header is a digit string and else `min(1·2^(attempt-1), 8)`,
plus jitter, raising 429 after the fifth rate-limited send; the first
response with a status in [400, 600) other than 429 raises immediately
with no further send, and any other response (2xx, but also 1xx/3xx —
the correction forced by `c8_counterexample`) is returned immediately to
the caller. -/
theorem c8_send_with_retries (resp : ℕ → HttpResp) (j : ℕ → ℚ) :
    (_send_with_retries resp j).2.1 ≤ 5 ∧
    ((∀ i, 1 ≤ i → i ≤ 5 → (resp i).status = 429) →
      _send_with_retries resp j =
        (.error 429, 5,
          (List.range 5).map (fun t => backoffSleep (resp (1 + t)) (1 + t) + j (1 + t)))) ∧
    (∀ m, m < 5 →
      (∀ i, 1 ≤ i → i < 1 + m → (resp i).status = 429) →
      (resp (1 + m)).status ≠ 429 →
      _send_with_retries resp j =
        (respOutcome (resp (1 + m)), m + 1,
          (List.range m).map (fun t => backoffSleep (resp (1 + t)) (1 + t) + j (1 + t)))) := by
  refine ⟨sendLoop_sends_le resp j 5 1, ?_, ?_⟩
  · intro h
    exact sendLoop_all429 resp j 5 1 (fun i h1 h2 => h i h1 (by omega))
  · intro m hm h429 hne
    exact sendLoop_first_non429 resp j m 5 1 hm h429 hne

/-- Witness for C8 (amended): five straight 429 responses carrying
`Retry-After: 7` produce exactly five sends, five 7-second sleeps and a
final 429 error; zero jitter. -/
theorem c8_witness :
    _send_with_retries (fun _ => ⟨429, some "7"⟩) (fun _ => 0) =
      (.error 429, 5, [7, 7, 7, 7, 7]) := by
  have h := (c8_send_with_retries (fun _ => ⟨429, some "7"⟩) (fun _ => 0)).2.1
    (fun i _ _ => rfl)
  rw [h]
  refine Prod.ext rfl (Prod.ext rfl ?_)
  show List.map (fun t => backoffSleep ⟨429, some "7"⟩ (1 + t) + (0 : ℚ))
    (List.range 5) = [7, 7, 7, 7, 7]
  norm_num [List.range_succ, backoffSleep, digitStrVal,
    show "7".isEmpty = false from rfl, show '7'.isDigit = true from rfl,
    show '7'.toNat - 48 = 7 from rfl]

/-! ### C1 — the `do_swap` submission loop ignores `max_attempts` -/

/-- C1 (bug evidence): the submit-and-confirm loop of `do_swap` is
`for attempt in range(1, 3)` — with every submission failing and
`max_attempts = 1` it still performs 2 submission attempts before
raising, and its behaviour is identical for every value of
`max_attempts`, contradicting the caller-specified bound (`ops.py`
passes `max_attempts=1` precisely to forbid internal retries). -/
theorem c1_do_swap_ignores_max_attempts :
    (do_swap_send allFailOracle 1).2 = 2 ∧
    (do_swap_send allFailOracle 1).1 = none ∧
    (∀ m : ℕ, do_swap_send allFailOracle m = do_swap_send allFailOracle 1) :=
  ⟨rfl, rfl, fun _ => rfl⟩

/-! ### C2 — the allowance reset is triggered by substring match only -/

/-- Shape of the primary chunk plan for the unit amount: the configured
60/30/10 split of 1 is `[3/5, 3/10, 1/10]`. -/
theorem primary_chunks_of_one :
    _build_chunks 1 CHUNK_PRIMARY_RATIOS = [3/5, 3/10, 1/10] := by
  norm_num [_build_chunks, buildParts, quantize18RD, truncToZero,
    CHUNK_PRIMARY_RATIOS]

/-- Counterexample to C2 as stated: two consecutive failures with the
message "network timeout" (matching no configured substring).  The
second failure is the `REAPPROVE_EVERY_N_FAILURES`-th failure, so under
the claim it must trigger a forced reset, but the recorded trace shows
no reset was attempted for either failure. -/
theorem c2_counterexample :
    REAPPROVE_EVERY_N_FAILURES = 2 ∧
    (sell_token_with_retry c2Oracle 1).2.2.2 =
      [("network timeout", false), ("network timeout", false)] := by
  refine ⟨rfl, ?_⟩
  have ho0 : c2Oracle 0 1 = .failure "network timeout" := rfl
  simp only [sell_token_with_retry, ho0]
  rw [primary_chunks_of_one]
  rfl

/-- The per-chunk attempt loop only ever appends events recording the
substring-match reset decision. -/
theorem chunkTry_events (o : ℕ → ℚ → SwapOutcome) (amt : ℚ) :
    ∀ f k evs, (∀ ev ∈ evs, GoodEvent ev) →
      ∀ ev ∈ (chunkTry o amt f k evs).2.2, GoodEvent ev := by
  intro f
  induction f with
  | zero => intro k evs h; exact h
  | succ f ih =>
    intro k evs h
    rw [chunkTry]
    cases o k amt with
    | success tx u => exact h
    | failure msg =>
      refine ih (k + 1) _ ?_
      intro ev hev
      rcases List.mem_append.mp hev with h1 | h1
      · exact h ev h1
      · rw [List.mem_singleton.mp h1]
        rfl

/-- The secondary sub-chunk loop preserves the event property. -/
theorem secondaryLoop_events (o : ℕ → ℚ → SwapOutcome) :
    ∀ subs k evs sold total ltx, (∀ ev ∈ evs, GoodEvent ev) →
      ∀ ev ∈ (secondaryLoop o subs k evs sold total ltx).2.2.2.2,
        GoodEvent ev := by
  intro subs
  induction subs with
  | nil => intro k evs _ _ _ h; exact h
  | cons s rest ih =>
    intro k evs sold total ltx h
    have hct := chunkTry_events o s CHUNK_MAX_ATTEMPTS k evs h
    rw [secondaryLoop]
    rcases hc : chunkTry o s CHUNK_MAX_ATTEMPTS k evs with ⟨r, k', evs'⟩
    rw [hc] at hct
    cases r with
    | none => exact hct
    | some p =>
      rcases p with ⟨tx, u⟩
      dsimp only
      by_cases hth : SECONDARY_EARLY_EXIT_SOLD ≤ sold + 1
      · rw [if_pos hth]
        exact hct
      · rw [if_neg hth]
        exact ih k' evs' (sold + 1) (total + u) tx hct

/-- The primary chunk loop preserves the event property. -/
theorem primaryLoop_events (o : ℕ → ℚ → SwapOutcome) :
    ∀ chunks k evs total ltx, (∀ ev ∈ evs, GoodEvent ev) →
      ∀ ev ∈ (primaryLoop o chunks k evs total ltx).2.2.2, GoodEvent ev := by
  intro chunks
  induction chunks with
  | nil => intro k evs _ _ h; exact h
  | cons c rest ih =>
    intro k evs total ltx h
    have hct := chunkTry_events o c CHUNK_MAX_ATTEMPTS k evs h
    rw [primaryLoop]
    rcases hc : chunkTry o c CHUNK_MAX_ATTEMPTS k evs with ⟨r, k', evs'⟩
    rw [hc] at hct
    cases r with
    | some p =>
      rcases p with ⟨tx, u⟩
      exact ih k' evs' (total + u) tx hct
    | none =>
      dsimp only
      have hsec := secondaryLoop_events o
        (_build_chunks c CHUNK_SECONDARY_RATIOS) k' evs' 0 total ltx hct
      rcases hs : secondaryLoop o (_build_chunks c CHUNK_SECONDARY_RATIOS)
          k' evs' 0 total ltx with ⟨step, ltx2, total2, k2, evs2⟩
      rw [hs] at hsec
      cases step with
      | ret => exact hsec
      | fall => exact ih k2 evs2 total2 ltx2 hsec

/-- C2 (amended): in `sell_token_with_retry`, after every failed swap
attempt (direct, primary chunk, or sub-chunk) a forced allowance reset
is attempted exactly when `RESET_APPROVE_ON_FAIL` is set and the
lower-cased error message contains one of the configured
allowance-exhaustion substrings; the running failure count and
`REAPPROVE_EVERY_N_FAILURES` play no part (the periodic-threshold
helper exists in the code but is never called), and a failing reset is
caught so the sell flow continues. -/
theorem c2_reset_on_substring_only (o : ℕ → ℚ → SwapOutcome) (amount : ℚ) :
    ∀ ev ∈ (sell_token_with_retry o amount).2.2.2, GoodEvent ev := by
  rw [sell_token_with_retry]
  cases o 0 amount with
  | success tx u => intro ev hev; exact absurd hev (List.not_mem_nil ev)
  | failure msg =>
    refine primaryLoop_events o _ 1 _ 0 "" ?_
    intro ev hev
    rw [List.mem_singleton.mp hev]
    rfl

/-- Witness for C2 (amended): a direct-sell failure whose message is
"insufficient allowance" records a reset attempt, and its recorded flag
is exactly the substring-match decision. -/
theorem c2_witness :
    (sell_token_with_retry c2WOracle 1).2.2.2 =
      [("insufficient allowance", true)] ∧
    GoodEvent ("insufficient allowance", true) := by
  have htr : (sell_token_with_retry c2WOracle 1).2.2.2 =
      [("insufficient allowance", true)] := by
    have ho0 : c2WOracle 0 1 = .failure "insufficient allowance" := rfl
    simp only [sell_token_with_retry, ho0]
    rw [primary_chunks_of_one]
    rfl
  refine ⟨htr, ?_⟩
  refine c2_reset_on_substring_only c2WOracle 1
    ("insufficient allowance", true) ?_
  rw [htr]
  exact List.mem_singleton.mpr rfl

/-! ### C4 — early exit of the secondary chunking -/

/-- C4: once the count of successfully sold sub-chunks reaches
`SECONDARY_EARLY_EXIT_SOLD`, the secondary loop returns at once with
the last transaction hash and the accumulated total, at the oracle
index reached — no remaining sub-chunk is attempted — and a `ret`
outcome of the secondary loop is returned by the primary loop
unchanged, so no remaining primary chunk is attempted either. -/
theorem c4_secondary_early_exit :
    (∀ (o : ℕ → ℚ → SwapOutcome) (s : ℚ) (rest : List ℚ) (k : ℕ)
        (evs : List ResetEvent) (sold : ℕ) (total u : ℚ) (ltx tx : String)
        (k' : ℕ) (evs' : List ResetEvent),
      chunkTry o s CHUNK_MAX_ATTEMPTS k evs = (some (tx, u), k', evs') →
      SECONDARY_EARLY_EXIT_SOLD ≤ sold + 1 →
      secondaryLoop o (s :: rest) k evs sold total ltx =
        (.ret, tx, total + u, k', evs')) ∧
    (∀ (o : ℕ → ℚ → SwapOutcome) (c : ℚ) (rest : List ℚ) (k : ℕ)
        (evs : List ResetEvent) (total : ℚ) (ltx ltx2 : String)
        (k₁ : ℕ) (evs₁ : List ResetEvent) (total2 : ℚ) (k2 : ℕ)
        (evs2 : List ResetEvent),
      chunkTry o c CHUNK_MAX_ATTEMPTS k evs = (none, k₁, evs₁) →
      secondaryLoop o (_build_chunks c CHUNK_SECONDARY_RATIOS) k₁ evs₁
          0 total ltx = (.ret, ltx2, total2, k2, evs2) →
      primaryLoop o (c :: rest) k evs total ltx =
        (ltx2, total2, k2, evs2)) := by
  constructor
  · intro o s rest k evs sold total u ltx tx k' evs' h1 h2
    rw [secondaryLoop, h1]
    dsimp only
    rw [if_pos h2]
  · intro o c rest k evs total ltx ltx2 k₁ evs₁ total2 k2 evs2 h1 h2
    rw [primaryLoop, h1]
    dsimp only
    rw [h2]

/-- Shape of the secondary chunk plan for the unit amount: the
configured 50/30/20 split of 1 is `[1/2, 3/10, 1/5]`. -/
theorem secondary_chunks_of_one :
    _build_chunks 1 CHUNK_SECONDARY_RATIOS = [1/2, 3/10, 1/5] := by
  norm_num [_build_chunks, buildParts, quantize18RD, truncToZero,
    CHUNK_SECONDARY_RATIOS]

/-- Witness for C4: a second sub-chunk success reaching the threshold 2
makes the secondary loop return immediately at oracle index 6 without
touching the remaining sub-chunk, and a primary chunk whose secondary
split ends in `ret` makes the controller return without touching the
remaining chunks. -/
theorem c4_witness :
    secondaryLoop c4Oracle [1/2, 3/10] 5 [] 1 10 "0xprev" =
      (.ret, "0xT", 10 + 7, 6, []) ∧
    primaryLoop c4FailOracle [1] 0 [] 0 "" =
      ("", 0, 4,
        [("slippage", false), ("slippage", false),
         ("slippage", false), ("slippage", false)]) := by
  constructor
  · exact c4_secondary_early_exit.1 c4Oracle (1/2) [3/10] 5 [] 1 10 7
      "0xprev" "0xT" 6 [] rfl (by decide)
  · refine c4_secondary_early_exit.2 c4FailOracle 1 [] 0 [] 0 "" "" 2
      [("slippage", false), ("slippage", false)] 0 4
      [("slippage", false), ("slippage", false),
       ("slippage", false), ("slippage", false)] rfl ?_
    rw [secondary_chunks_of_one]
    rfl

end OkxDexBot
